import Mathlib

/-!
Verification of cargo-v5's two core subsystems, shallowly embedded from the
source: the template acquisition/caching pipeline (`src/commands/new.rs`)
and the build process driver (`src/main.rs`).

Network requests, the filesystem cache and the clock are modelled as an
explicit `World` of outcomes; each Rust function becomes a pure Lean
function over that world, threading the persisted cache state and the
emitted log messages explicitly.
-/

set_option maxRecDepth 4000

/-- A path, as its list of components. -/
abbrev FPath := List String

/-- The error type `CliError` of the source, restricted to the constructors
the embedded code can produce. `reqwestError` carries an opaque transport
error code. -/
inductive CliError where
  | reqwestError (e : Nat)
  | malformedResponse
  | projectDirFull (dir : FPath)
deriving DecidableEq

/-- Log levels of the `log` crate macros used by the source. -/
inductive LogLevel where
  | debug
  | info
  | warn
deriving DecidableEq

/-- One emitted log line. -/
structure LogMsg where
  level : LogLevel
  msg : String
deriving DecidableEq

/-- Structure `Template` from `new.rs`: raw archive bytes plus an optional version
fingerprint (a commit sha). -/
structure Template where
  data : List Nat
  sha : Option String
deriving DecidableEq

/-- What the metadata (commit-sha) HTTP request can come back as:
the send itself fails; the send succeeds but reading the body text fails
(`response.text().await` errors); or a body is obtained. -/
inductive ShaOutcome where
  | sendFailed (e : Nat)
  | textFailed
  | gotBody (b : Option String)
deriving DecidableEq

/-- Model of `serde_json::from_str::<Value>(text).unwrap_or_default()["sha"]` as used
by the source: a body either carries a string `sha` field (`some s`) or it
does not (`none`; this covers parse failures, which `unwrap_or_default`
turns into `Null`, whose `["sha"]` is `Null`). -/
def shaField (b : Option String) : Option String := b

/-- Function `get_current_sha` from `new.rs`: issue the metadata request; on send
failure return the transport error; otherwise read the body text, replacing
a failed read by the literal `"\x7b\x7d"` (which has no `sha` field), and
return the `sha` string or `MalformedResponse`. -/
def get_current_sha (o : ShaOutcome) : Except CliError String :=
  match o with
  | .sendFailed e => .error (.reqwestError e)
  | .textFailed =>
      match shaField none with
      | some s => .ok s
      | none => .error .malformedResponse
  | .gotBody b =>
      match shaField b with
      | some s => .ok s
      | none => .error .malformedResponse

/-- Outcome of the archive download (`reqwest::get` then `.bytes()`):
the GET fails, reading the body fails, or the bytes arrive. -/
inductive DlOutcome where
  | sendFailed (e : Nat)
  | bytesFailed (e : Nat)
  | ok (bytes : List Nat)
deriving DecidableEq

/-- Is the download outcome a failure? -/
def DlOutcome.failed : DlOutcome → Bool
  | .ok _ => false
  | _ => true

/-- The two persisted cache files (`vexide-template.tar.gz` and
`cache-id.txt`): `none` means the file is absent/unreadable. -/
structure CacheState where
  dataFile : Option (List Nat)
  shaFile : Option String
deriving DecidableEq

/-- The ambient world of one scaffold request: the outcomes of the (up to
two) metadata requests and the archive download, whether the platform cache
directory resolves (`ProjectDirs::from(..).cache_dir().canonicalize()`),
whether each of the two cache-file writes would succeed, and the bytes of
the bundled archive baked into the binary by `include_bytes!`. -/
structure World where
  shaOutcome1 : ShaOutcome
  shaOutcome2 : ShaOutcome
  dl : DlOutcome
  cacheDirAvailable : Bool
  writeDataOk : Bool
  writeShaOk : Bool
  bakedData : List Nat
deriving DecidableEq

/-- Function `get_cached_template` from `new.rs`: if the cache directory resolves,
read the sha file (absent reads become `none`) and the data file; a present
data file yields a `Template` with those bytes and that optional sha. -/
def get_cached_template (w : World) (st : CacheState) : Option Template :=
  if w.cacheDirAvailable then
    let sha := st.shaFile
    st.dataFile.map (fun data => { data := data, sha := sha })
  else
    none

/-- Function `store_cached_template` from `new.rs`: if the cache directory resolves,
write the data file (`let _ =` discards a failure), and, only when the
template carries a sha, write the sha file (failure again discarded). The
source returns `()` and emits no log, so the model returns the new cache
state and an always-empty log list. -/
def store_cached_template (w : World) (st : CacheState) (t : Template) :
    CacheState × List LogMsg :=
  if w.cacheDirAvailable then
    let st1 := if w.writeDataOk then { st with dataFile := some t.data } else st
    match t.sha with
    | some sha =>
        ((if w.writeShaOk then { st1 with shaFile := some sha } else st1), [])
    | none => (st1, [])
  else
    (st, [])

/-- Function `baked_in_template` from `new.rs`: the bundled archive bytes, with no
fingerprint. -/
def baked_in_template (w : World) : Template :=
  { data := w.bakedData, sha := none }

/-- Function `fetch_template` from `new.rs`: one archive download; on transport or
body failure the error propagates; on success the second metadata request
supplies the (optional) sha, the result is stored in the cache, and the
template is returned. Returns the result, the cache state after the call,
and the emitted log lines. -/
def fetch_template (w : World) (st : CacheState) :
    Except CliError Template × CacheState × List LogMsg :=
  let l0 : List LogMsg := [⟨.debug, "Fetching template..."⟩]
  match w.dl with
  | .sendFailed e => (.error (.reqwestError e), st, l0)
  | .bytesFailed e => (.error (.reqwestError e), st, l0)
  | .ok bytes =>
      let l1 := l0 ++ [⟨.debug, "Successfully fetched template."⟩]
      let t : Template := { data := bytes, sha := (get_current_sha w.shaOutcome2).toOption }
      let stored := store_cached_template w st t
      (.ok t, stored.1, l1 ++ stored.2)

/-- The guard of the second match arm in `new`: the cached template carries
a sha and the first metadata request succeeded with the same sha. -/
def cacheIsCurrent (w : World) (st : CacheState) : Bool :=
  match (get_cached_template w st).bind (fun t => t.sha), get_current_sha w.shaOutcome1 with
  | some cachedSha, .ok currentSha => cachedSha == currentSha
  | _, _ => false

/-- The warning emitted by `new` when a fresh download fails. -/
def couldNotFetchWarning : LogMsg :=
  ⟨.warn, "Could not fetch template, falling back to cache."⟩

/-- The third match arm of `new` (cache stale, absent, or fingerprint fetch
failed): attempt `fetch_template`; on success use it, otherwise warn and
fall back to whatever was cached. Also counts the one archive download this
arm issues. -/
def staleFetch (w : World) (st : CacheState) (template : Option Template) :
    Option Template × CacheState × List LogMsg × Nat :=
  let l0 : List LogMsg := [⟨.debug, "Cached template is out of date."⟩]
  match fetch_template w st with
  | (.ok t, st2, lf) => (some t, st2, l0 ++ lf, 1)
  | (.error _, st2, lf) =>
      (template, st2, l0 ++ lf ++ [couldNotFetchWarning], 1)

/-- Result of template resolution (lines 142–169 of `new.rs`): the template
to unpack, the cache state afterwards, the log lines, and how many archive
downloads were issued. -/
structure ResolveResult where
  template : Template
  cache : CacheState
  logs : List LogMsg
  downloads : Nat
deriving DecidableEq

/-- The template-resolution block of `new` from `new.rs`: read the cache;
then the three-armed match (whose guards desugar to the nested `if` below):
keep the cache untouched when no download was requested, skip the download
when the cached sha equals the current remote sha, and otherwise fetch with
fallback to the cache; finally substitute the baked-in template if nothing
was available. -/
def resolveTemplate (w : World) (st : CacheState) (download_template : Bool) :
    ResolveResult :=
  let template := get_cached_template w st
  let step :=
    if download_template = false then
      (template, st, ([] : List LogMsg), 0)
    else if cacheIsCurrent w st then
      (template, st, [⟨.debug, "Cached template is current, skipping download."⟩], 0)
    else
      staleFetch w st template
  match step with
  | (some t, st2, logs, dls) => ⟨t, st2, logs, dls⟩
  | (none, st2, logs, dls) =>
      ⟨baked_in_template w, st2,
        logs ++ [⟨.debug, "No template found in cache, using builtin template."⟩], dls⟩

/-!
## Build process driver (`src/main.rs`, `build`)

`Message::parse_stream` yields a finite ordered sequence of decoded
compiler messages; the loop at the end of `build` calls the caller-supplied
`handle_executable` closure for each `CompilerArtifact` message whose
`executable` field is present.
-/

/-- A decoded `cargo_metadata::Message`, as the loop in `build`
distinguishes them: a compiler artifact with its optional executable path,
or any other message. -/
inductive CompilerMessage where
  | compilerArtifact (executable : Option String)
  | other
deriving DecidableEq

/-- The executable path a message contributes, if any. -/
def CompilerMessage.exePath : CompilerMessage → Option String
  | .compilerArtifact (some p) => some p
  | _ => none

/-- The message loop of `build` from `main.rs`, over an arbitrary stateful
handler (the Rust closure is `FnMut`, i.e. a state `σ` updated at each
invocation): for each message in order, if it is a `CompilerArtifact` with
an `executable`, invoke the handler on that path. -/
def runMessages {σ : Type} (handler : σ → String → σ) : σ → List CompilerMessage → σ
  | s, [] => s
  | s, .compilerArtifact (some p) :: rest => runMessages handler (handler s p) rest
  | s, .compilerArtifact none :: rest => runMessages handler s rest
  | s, .other :: rest => runMessages handler s rest

/-!
## Archive unpacking (`unpack_template` in `new.rs`)

Entries of the (already gunzipped and tar-decoded) archive are modelled as
their path — a list of components, each a raw byte sequence, since tar
paths need not be UTF-8 — together with their contents. `unpack_template`
strips the first path component (`path.iter().skip(1)`), and writes the
entry under the target directory only when the stripped path converts to a
`&str`, i.e. is valid UTF-8 (`stripped_path.to_str()`); the result is the
ordered list of performed writes (output path components, contents).
-/

/-- Is `b` a UTF-8 continuation byte? -/
def utf8Cont (b : Nat) : Bool := 0x80 ≤ b && b ≤ 0xBF

/-- Exact UTF-8 validity of a byte sequence (what `Path::to_str` checks on
each component): ASCII, 2-byte C2–DF, 3-byte E0/E1–EC/ED/EE–EF with their
restricted first continuations (no overlongs, no surrogates), 4-byte
F0/F1–F3/F4 likewise (no values beyond U+10FFFF). -/
def utf8Valid : List Nat → Bool
  | [] => true
  | b :: rest =>
    if b ≤ 0x7F then utf8Valid rest
    else if 0xC2 ≤ b && b ≤ 0xDF then
      match rest with
      | c1 :: r => utf8Cont c1 && utf8Valid r
      | [] => false
    else if b = 0xE0 then
      match rest with
      | c1 :: c2 :: r => (0xA0 ≤ c1 && c1 ≤ 0xBF) && utf8Cont c2 && utf8Valid r
      | _ => false
    else if (0xE1 ≤ b && b ≤ 0xEC) || b = 0xEE || b = 0xEF then
      match rest with
      | c1 :: c2 :: r => utf8Cont c1 && utf8Cont c2 && utf8Valid r
      | _ => false
    else if b = 0xED then
      match rest with
      | c1 :: c2 :: r => (0x80 ≤ c1 && c1 ≤ 0x9F) && utf8Cont c2 && utf8Valid r
      | _ => false
    else if b = 0xF0 then
      match rest with
      | c1 :: c2 :: c3 :: r =>
          (0x90 ≤ c1 && c1 ≤ 0xBF) && utf8Cont c2 && utf8Cont c3 && utf8Valid r
      | _ => false
    else if 0xF1 ≤ b && b ≤ 0xF3 then
      match rest with
      | c1 :: c2 :: c3 :: r =>
          utf8Cont c1 && utf8Cont c2 && utf8Cont c3 && utf8Valid r
      | _ => false
    else if b = 0xF4 then
      match rest with
      | c1 :: c2 :: c3 :: r =>
          (0x80 ≤ c1 && c1 ≤ 0x8F) && utf8Cont c2 && utf8Cont c3 && utf8Valid r
      | _ => false
    else false

/-- One decoded tar entry: its path components (raw bytes) and contents. -/
structure TarEntry where
  path : List (List Nat)
  data : List Nat
deriving DecidableEq

/-- The loop of `unpack_template` from `new.rs` over the decoded entries:
strip the first path component; when every remaining component is valid
UTF-8 (equivalently, the joined stripped path is, since the separator is
ASCII), write the contents at the target directory joined with the
stripped path; otherwise the entry is skipped. Returns the performed
writes in order. -/
def unpack_template : List TarEntry → List (List Nat) → List (List (List Nat) × List Nat)
  | [], _ => []
  | e :: rest, dir =>
      if (e.path.drop 1).all utf8Valid then
        (dir ++ e.path.drop 1, e.data) :: unpack_template rest dir
      else
        unpack_template rest dir

/-!
## The directory gate of `new` (`new.rs` lines 127–137)

A finite filesystem of existing directories: an association list from a
directory path to its number of entries. `std::fs::create_dir_all` is
modelled by its documented behaviour — create every missing component of
the path, a newly created directory being empty and counting as one new
entry of its parent. `std::fs::read_dir(&dir).is_ok_and(|e| e.count() > 0)`
is false for a nonexistent directory (where `read_dir` errors) and
otherwise compares the entry count.
-/

/-- Existing directories with their entry counts. -/
abbrev Fs := List (FPath × Nat)

/-- Entry count of `p`, or `none` if the directory does not exist. -/
def lookupDir : Fs → FPath → Option Nat
  | [], _ => none
  | (q, n) :: rest, p => if q = p then some n else lookupDir rest p

/-- Model of `read_dir(&p).is_ok_and(|e| e.count() > 0)` as a count: a missing
directory reads as `0` (the `is_ok_and` is false). -/
def entryCountOf (fs : Fs) (p : FPath) : Nat :=
  match lookupDir fs p with
  | some n => n
  | none => 0

/-- Creating a child of `q` increments `q`'s entry count. -/
def bumpParent (fs : Fs) (q : FPath) : Fs :=
  match q with
  | [] => fs
  | _ => fs.map (fun pn => if pn.1 = q.dropLast then (pn.1, pn.2 + 1) else pn)

/-- Create directory `q` if missing: it starts empty and is one new entry
of its parent. -/
def mkdirIfMissing (fs : Fs) (q : FPath) : Fs :=
  if (lookupDir fs q).isSome then fs else (q, 0) :: bumpParent fs q

/-- The nonempty prefixes of a path, shortest first (`p.take 1`, …, `p`). -/
def nonemptyPrefixes (p : FPath) : List FPath :=
  (List.range p.length).map (fun k => p.take (k + 1))

/-- Model of `std::fs::create_dir_all(&p)`: create every missing component of `p`,
shortest prefix first. -/
def create_dir_all (fs : Fs) (p : FPath) : Fs :=
  (nonemptyPrefixes p).foldl mkdirIfMissing fs

/-- The target project directory of `new`: `path.join(name)` when a name
was given, otherwise `path` itself. -/
def targetDir (path : FPath) (name : Option String) : FPath :=
  match name with
  | some n => path ++ [n]
  | none => path

/-- Lines 127–137 of `new.rs`: when a project name is given, the target is
`path.join(name)` and `create_dir_all(&path)` runs first; then the
emptiness gate — a distinct `ProjectDirFull` error whenever the target
directory exists and has at least one entry. Returns the gate outcome and
the filesystem afterwards. -/
def newDirPhase (fs : Fs) (path : FPath) (name : Option String) :
    Except CliError FPath × Fs :=
  match name with
  | some n =>
      let dir := path ++ [n]
      let fs2 := create_dir_all fs path
      if 0 < entryCountOf fs2 dir then (.error (.projectDirFull dir), fs2)
      else (.ok dir, fs2)
  | none =>
      if 0 < entryCountOf fs path then (.error (.projectDirFull path), fs)
      else (.ok path, fs)

/-- Filesystem well-formedness: every nonempty prefix of an existing
directory's path exists (a real filesystem only contains a directory whose
ancestors exist). -/
def wfFs (fs : Fs) : Bool :=
  fs.all (fun pn => (nonemptyPrefixes pn.1).all (fun q => (lookupDir fs q).isSome))

/-!
## Manifest rewrite (`new.rs` lines 178–182)

`manifest.replace("vexide-template", &name)`: Rust's `str::replace`
substitutes the replacement for every non-overlapping occurrence of the
pattern, scanning left to right. Strings are modelled as character lists.
-/

/-- Character-list strings. -/
abbrev Str := List Char

/-- Rust `str::replace` (for a non-empty pattern, which is the only way the
source calls it — the pattern is the literal placeholder): scanning left to
right, at each position replace the pattern by `N` when it matches,
resuming after the match, else keep the character. -/
def replaceAll (P N : Str) : Str → Str
  | [] => []
  | c :: rest =>
    if h : P ≠ [] ∧ P.isPrefixOf (c :: rest) then
      N ++ replaceAll P N ((c :: rest).drop P.length)
    else
      c :: replaceAll P N rest
termination_by s => s.length
decreasing_by
  · have h1 : 0 < P.length := List.length_pos.mpr h.1
    have h2 : P.length ≤ rest.length + 1 := by
      have hpre := List.isPrefixOf_iff_prefix.mp h.2
      exact le_trans hpre.length_le (by simp)
    simp [List.length_drop]
    omega
  · simp

/-- The number of (non-overlapping, leftmost-first) occurrences of `P`,
following the same scan as `replaceAll`. -/
def occurs (P : Str) : Str → Nat
  | [] => 0
  | c :: rest =>
    if h : P ≠ [] ∧ P.isPrefixOf (c :: rest) then
      1 + occurs P ((c :: rest).drop P.length)
    else
      occurs P rest
termination_by s => s.length
decreasing_by
  · have h1 : 0 < P.length := List.length_pos.mpr h.1
    have h2 : P.length ≤ rest.length + 1 := by
      have hpre := List.isPrefixOf_iff_prefix.mp h.2
      exact le_trans hpre.length_le (by simp)
    simp [List.length_drop]
    omega
  · simp

/-- Split at the leftmost occurrence of `P`: `some (pre, suf)` with the
input equal to `pre ++ P ++ suf` and no occurrence starting inside `pre`. -/
def splitFirst (P : Str) : Str → Option (Str × Str)
  | [] => none
  | c :: rest =>
    if P ≠ [] ∧ P.isPrefixOf (c :: rest) then
      some ([], (c :: rest).drop P.length)
    else
      (splitFirst P rest).map (fun pr => (c :: pr.1, pr.2))

/-- The template's canonical placeholder project identifier. -/
def placeholderName : Str := "vexide-template".toList

/-- Line 181 of `new.rs`: `manifest.replace("vexide-template", &name)`. -/
def rewriteManifest (manifest name : Str) : Str :=
  replaceAll placeholderName name manifest

/-!
## Claims about the template cache manager
-/

/-- C1: for every scaffold request with template download requested, a
cached record whose fingerprint `F` equals the successfully fetched current
remote fingerprint, the resolution issues zero archive downloads, uses the
cached bytes, and leaves the cache untouched. -/
theorem cached_current_template_no_download (w : World) (st : CacheState)
    (d : List Nat) (F : String)
    (hdir : w.cacheDirAvailable = true) (hdata : st.dataFile = some d)
    (hsha : st.shaFile = some F)
    (hfetch : get_current_sha w.shaOutcome1 = .ok F) :
    (resolveTemplate w st true).downloads = 0 ∧
    (resolveTemplate w st true).template = ⟨d, some F⟩ ∧
    (resolveTemplate w st true).cache = st := by
  have hcur : cacheIsCurrent w st = true := by
    simp [cacheIsCurrent, get_cached_template, hdir, hdata, hsha, hfetch]
  simp [resolveTemplate, hcur, get_cached_template, hdir, hdata, hsha]

theorem cached_current_template_no_download_witness :
    (resolveTemplate ⟨.gotBody (some "f"), .gotBody none, .ok [2], true, true, true, [9]⟩
        ⟨some [1], some "f"⟩ true).downloads = 0 ∧
    (resolveTemplate ⟨.gotBody (some "f"), .gotBody none, .ok [2], true, true, true, [9]⟩
        ⟨some [1], some "f"⟩ true).template = ⟨[1], some "f"⟩ ∧
    (resolveTemplate ⟨.gotBody (some "f"), .gotBody none, .ok [2], true, true, true, [9]⟩
        ⟨some [1], some "f"⟩ true).cache = ⟨some [1], some "f"⟩ :=
  cached_current_template_no_download
    ⟨.gotBody (some "f"), .gotBody none, .ok [2], true, true, true, [9]⟩
    ⟨some [1], some "f"⟩ [1] "f" rfl rfl rfl rfl

/-- C2 counterexample: cached fingerprint `"f1"`, current remote
fingerprint `"f2"`, the download succeeds — but the metadata refetch
performed inside `fetch_template` fails, so only the archive bytes are
overwritten: the cache ends as the new bytes paired with the OLD
fingerprint, refuting "both persisted cache files are overwritten …
paired with fingerprint F2". -/
theorem stale_cache_refetch_failure_counterexample :
    (resolveTemplate ⟨.gotBody (some "f2"), .sendFailed 0, .ok [2], true, true, true, [9]⟩
        ⟨some [1], some "f1"⟩ true).downloads = 1 ∧
    ¬ (resolveTemplate ⟨.gotBody (some "f2"), .sendFailed 0, .ok [2], true, true, true, [9]⟩
        ⟨some [1], some "f1"⟩ true).cache = ⟨some [2], some "f2"⟩ ∧
    (resolveTemplate ⟨.gotBody (some "f2"), .sendFailed 0, .ok [2], true, true, true, [9]⟩
        ⟨some [1], some "f1"⟩ true).cache = ⟨some [2], some "f1"⟩ := by
  decide

/-- C2 (amended): with a cached fingerprint `F1` and a current remote
fingerprint `F2 ≠ F1`, exactly one fresh download is attempted; if it
succeeds, the cache writes succeed, and the metadata refetch issued during
the download also succeeds (returning `F2`), then the cache afterwards
holds the new bytes paired with `F2`. -/
theorem stale_cache_one_download_overwrites (w : World) (st : CacheState)
    (d1 bytes : List Nat) (F1 F2 : String)
    (hdir : w.cacheDirAvailable = true) (hdata : st.dataFile = some d1)
    (hsha : st.shaFile = some F1)
    (h1 : get_current_sha w.shaOutcome1 = .ok F2) (hne : F1 ≠ F2)
    (hwd : w.writeDataOk = true) (hws : w.writeShaOk = true) :
    (resolveTemplate w st true).downloads = 1 ∧
    (w.dl = .ok bytes → get_current_sha w.shaOutcome2 = .ok F2 →
      (resolveTemplate w st true).cache = ⟨some bytes, some F2⟩ ∧
      (resolveTemplate w st true).template = ⟨bytes, some F2⟩) := by
  have hcur : cacheIsCurrent w st = false := by
    simp [cacheIsCurrent, get_cached_template, hdir, hdata, hsha, h1]
    simpa [eq_comm] using hne
  constructor
  · cases hw : w.dl <;>
      simp [resolveTemplate, hcur, staleFetch, fetch_template, hw,
        get_cached_template, hdir, hdata]
  · intro hdl h2
    simp [resolveTemplate, hcur, staleFetch, fetch_template, hdl, h2,
      store_cached_template, hdir, hwd, hws, Except.toOption,
      get_cached_template, hdata]

theorem stale_cache_one_download_overwrites_witness :
    (resolveTemplate ⟨.gotBody (some "f2"), .gotBody (some "f2"), .ok [2], true, true, true, [9]⟩
        ⟨some [1], some "f1"⟩ true).downloads = 1 ∧
    ((⟨.gotBody (some "f2"), .gotBody (some "f2"), .ok [2], true, true, true, [9]⟩ : World).dl
        = .ok [2] →
      get_current_sha (World.shaOutcome2
        ⟨.gotBody (some "f2"), .gotBody (some "f2"), .ok [2], true, true, true, [9]⟩) = .ok "f2" →
      (resolveTemplate ⟨.gotBody (some "f2"), .gotBody (some "f2"), .ok [2], true, true, true, [9]⟩
          ⟨some [1], some "f1"⟩ true).cache = ⟨some [2], some "f2"⟩ ∧
      (resolveTemplate ⟨.gotBody (some "f2"), .gotBody (some "f2"), .ok [2], true, true, true, [9]⟩
          ⟨some [1], some "f1"⟩ true).template = ⟨[2], some "f2"⟩) :=
  stale_cache_one_download_overwrites
    ⟨.gotBody (some "f2"), .gotBody (some "f2"), .ok [2], true, true, true, [9]⟩
    ⟨some [1], some "f1"⟩ [1] [2] "f1" "f2" rfl rfl rfl rfl (by decide) rfl rfl

/-- C3: whenever the fresh download is attempted (download requested, cache
not current) and fails, the warning is emitted and: with a cached record
present its bytes (and whatever fingerprint it had) are used, and with no
cached record the baked-in template, carrying no fingerprint, is used; the
cache is left untouched and resolution still produces a template. -/
theorem download_failure_falls_back (w : World) (st : CacheState)
    (hcur : cacheIsCurrent w st = false) (hdl : w.dl.failed = true) :
    couldNotFetchWarning ∈ (resolveTemplate w st true).logs ∧
    (∀ d, w.cacheDirAvailable = true → st.dataFile = some d →
      (resolveTemplate w st true).template = ⟨d, st.shaFile⟩) ∧
    (get_cached_template w st = none →
      (resolveTemplate w st true).template = baked_in_template w ∧
      (resolveTemplate w st true).template.sha = none) ∧
    (resolveTemplate w st true).cache = st := by
  cases hw : w.dl with
  | ok bytes => rw [hw] at hdl; simp [DlOutcome.failed] at hdl
  | sendFailed e =>
      rcases hgc : get_cached_template w st with _ | t
      · refine ⟨?_, ?_, ?_, ?_⟩ <;>
          simp [resolveTemplate, hcur, staleFetch, fetch_template, hw, hgc,
            baked_in_template]
        intro d hdir hdata
        rw [get_cached_template, if_pos hdir, hdata] at hgc
        simp at hgc
      · refine ⟨?_, ?_, ?_, ?_⟩ <;>
          simp [resolveTemplate, hcur, staleFetch, fetch_template, hw, hgc]
        intro d hdir hdata
        rw [get_cached_template, if_pos hdir, hdata] at hgc
        simpa using hgc.symm
  | bytesFailed e =>
      rcases hgc : get_cached_template w st with _ | t
      · refine ⟨?_, ?_, ?_, ?_⟩ <;>
          simp [resolveTemplate, hcur, staleFetch, fetch_template, hw, hgc,
            baked_in_template]
        intro d hdir hdata
        rw [get_cached_template, if_pos hdir, hdata] at hgc
        simp at hgc
      · refine ⟨?_, ?_, ?_, ?_⟩ <;>
          simp [resolveTemplate, hcur, staleFetch, fetch_template, hw, hgc]
        intro d hdir hdata
        rw [get_cached_template, if_pos hdir, hdata] at hgc
        simpa using hgc.symm

theorem download_failure_falls_back_witness :
    couldNotFetchWarning ∈ (resolveTemplate
      ⟨.sendFailed 3, .gotBody none, .sendFailed 4, true, true, true, [9]⟩
      ⟨some [1], some "f1"⟩ true).logs ∧
    (∀ d, (⟨.sendFailed 3, .gotBody none, .sendFailed 4, true, true, true, [9]⟩ : World).cacheDirAvailable = true →
      (⟨some [1], some "f1"⟩ : CacheState).dataFile = some d →
      (resolveTemplate ⟨.sendFailed 3, .gotBody none, .sendFailed 4, true, true, true, [9]⟩
        ⟨some [1], some "f1"⟩ true).template = ⟨d, (⟨some [1], some "f1"⟩ : CacheState).shaFile⟩) ∧
    (get_cached_template ⟨.sendFailed 3, .gotBody none, .sendFailed 4, true, true, true, [9]⟩
        ⟨some [1], some "f1"⟩ = none →
      (resolveTemplate ⟨.sendFailed 3, .gotBody none, .sendFailed 4, true, true, true, [9]⟩
        ⟨some [1], some "f1"⟩ true).template
          = baked_in_template ⟨.sendFailed 3, .gotBody none, .sendFailed 4, true, true, true, [9]⟩ ∧
      (resolveTemplate ⟨.sendFailed 3, .gotBody none, .sendFailed 4, true, true, true, [9]⟩
        ⟨some [1], some "f1"⟩ true).template.sha = none) ∧
    (resolveTemplate ⟨.sendFailed 3, .gotBody none, .sendFailed 4, true, true, true, [9]⟩
        ⟨some [1], some "f1"⟩ true).cache = ⟨some [1], some "f1"⟩ :=
  download_failure_falls_back
    ⟨.sendFailed 3, .gotBody none, .sendFailed 4, true, true, true, [9]⟩
    ⟨some [1], some "f1"⟩ (by decide) (by decide)

/-!
## Helper lemmas about `unpack_template`
-/

theorem unpack_write_of_mem (arch : List TarEntry) (dir : List (List Nat)) (e : TarEntry)
    (he : e ∈ arch) (hv : (e.path.drop 1).all utf8Valid = true) :
    (dir ++ e.path.drop 1, e.data) ∈ unpack_template arch dir := by
  induction arch with
  | nil => cases he
  | cons a rest ih =>
      rcases List.mem_cons.mp he with rfl | he2
      · rw [unpack_template, if_pos hv]
        exact List.mem_cons_self _ _
      · by_cases ha : (a.path.drop 1).all utf8Valid = true
        · rw [unpack_template, if_pos ha]
          exact List.mem_cons_of_mem _ (ih he2)
        · rw [unpack_template, if_neg ha]
          exact ih he2

theorem unpack_write_src (arch : List TarEntry) (dir : List (List Nat))
    (out : List (List Nat) × List Nat) (hout : out ∈ unpack_template arch dir) :
    ∃ e, e ∈ arch ∧ (e.path.drop 1).all utf8Valid = true ∧
      out = (dir ++ e.path.drop 1, e.data) := by
  induction arch with
  | nil => rw [unpack_template] at hout; cases hout
  | cons a rest ih =>
      by_cases ha : (a.path.drop 1).all utf8Valid = true
      · rw [unpack_template, if_pos ha] at hout
        rcases List.mem_cons.mp hout with rfl | hout2
        · exact ⟨a, List.mem_cons_self a rest, ha, rfl⟩
        · obtain ⟨e, he, hv, heq⟩ := ih hout2
          exact ⟨e, List.mem_cons_of_mem a he, hv, heq⟩
      · rw [unpack_template, if_neg ha] at hout
        obtain ⟨e, he, hv, heq⟩ := ih hout
        exact ⟨e, List.mem_cons_of_mem a he, hv, heq⟩

/-!
## Claims about unpacking
-/

/-- C5 counterexample: an archive whose single entry has path
`root/<0xFF>` — all entries share the common root segment `root` — yet the
entry is not written anywhere (the write list is empty), because its
stripped path is not valid UTF-8. -/
theorem unpack_nonutf8_not_written_counterexample :
    (([⟨[[114, 111, 111, 116], [255]], [7]⟩] : List TarEntry).all
      (fun e => e.path.take 1 = [[114, 111, 111, 116]])) = true ∧
    unpack_template [⟨[[114, 111, 111, 116], [255]], [7]⟩] [[116]] = [] := by
  decide

/-- C5 (amended): for an archive whose entries all share the common first
segment `r`, every entry's path is `r` followed by its stripped path, every
entry whose stripped path is valid UTF-8 is written to the target directory
at exactly that stripped path (first segment removed, any nesting depth),
and these are the only writes; entries whose stripped path is not valid
UTF-8 are skipped. -/
theorem unpack_strips_exactly_one_root_segment (arch : List TarEntry)
    (dir : List (List Nat)) (r : List Nat)
    (hroot : ∀ e ∈ arch, e.path.take 1 = [r]) :
    (∀ e ∈ arch, e.path = r :: e.path.drop 1) ∧
    (∀ e ∈ arch, (e.path.drop 1).all utf8Valid = true →
      (dir ++ e.path.drop 1, e.data) ∈ unpack_template arch dir) ∧
    (∀ out ∈ unpack_template arch dir, ∃ e, e ∈ arch ∧
      (e.path.drop 1).all utf8Valid = true ∧
      out = (dir ++ e.path.drop 1, e.data)) := by
  refine ⟨?_, fun e he hv => unpack_write_of_mem arch dir e he hv,
    fun out hout => unpack_write_src arch dir out hout⟩
  intro e he
  have h := hroot e he
  cases hp : e.path with
  | nil => rw [hp] at h; simp at h
  | cons a t =>
      rw [hp] at h
      simp at h
      subst h
      simp

theorem unpack_strips_exactly_one_root_segment_witness :
    (∀ e ∈ ([⟨[[114], [97]], [7]⟩] : List TarEntry), e.path = [114] :: e.path.drop 1) ∧
    (∀ e ∈ ([⟨[[114], [97]], [7]⟩] : List TarEntry),
      (e.path.drop 1).all utf8Valid = true →
      (([[116]] : List (List Nat)) ++ e.path.drop 1, e.data)
        ∈ unpack_template [⟨[[114], [97]], [7]⟩] [[116]]) ∧
    (∀ out ∈ unpack_template [⟨[[114], [97]], [7]⟩] [[116]],
      ∃ e, e ∈ ([⟨[[114], [97]], [7]⟩] : List TarEntry) ∧
      (e.path.drop 1).all utf8Valid = true ∧
      out = (([[116]] : List (List Nat)) ++ e.path.drop 1, e.data)) :=
  unpack_strips_exactly_one_root_segment [⟨[[114], [97]], [7]⟩] [[116]] [114] (by decide)

/-- C10: an archive entry whose path after stripping the first segment is
not valid UTF-8 is silently skipped — the writes of the archive with the
entry are exactly the writes of the archive without it (no file for it, no
error, all other entries still extracted). -/
theorem unpack_skips_non_utf8_entry (e : TarEntry) (rest : List TarEntry)
    (dir : List (List Nat)) (hinv : (e.path.drop 1).all utf8Valid = false) :
    unpack_template (e :: rest) dir = unpack_template rest dir := by
  simp only [unpack_template, hinv, Bool.false_eq_true, ite_false]

theorem unpack_skips_non_utf8_entry_witness :
    unpack_template [⟨[[114], [255]], [8]⟩, ⟨[[114], [97]], [7]⟩] [[116]]
      = unpack_template [⟨[[114], [97]], [7]⟩] [[116]] :=
  unpack_skips_non_utf8_entry ⟨[[114], [255]], [8]⟩ [⟨[[114], [97]], [7]⟩] [[116]] (by decide)

/-!
## Helper lemmas about the directory gate filesystem model
-/

theorem lookupDir_map_bump (l : Fs) (key p : FPath) (hp : p ≠ key) :
    lookupDir (l.map (fun pn => if pn.1 = key then (pn.1, pn.2 + 1) else pn)) p
      = lookupDir l p := by
  induction l with
  | nil => rfl
  | cons a rest ih =>
      obtain ⟨q, m⟩ := a
      simp only [List.map_cons]
      by_cases hq : q = key
      · subst hq
        rw [if_pos rfl, lookupDir, lookupDir, if_neg (fun hh => hp hh.symm),
          if_neg (fun hh => hp hh.symm), ih]
      · rw [if_neg hq]
        by_cases hqp : q = p
        · subst hqp
          rw [lookupDir, lookupDir, if_pos rfl, if_pos rfl]
        · rw [lookupDir, lookupDir, if_neg hqp, if_neg hqp, ih]

theorem lookupDir_bumpParent (fs : Fs) (q p : FPath) (hp : p ≠ q.dropLast) :
    lookupDir (bumpParent fs q) p = lookupDir fs p := by
  cases q with
  | nil => rfl
  | cons s t => exact lookupDir_map_bump fs ((s :: t).dropLast) p hp

theorem lookupDir_mkdirIfMissing (fs : Fs) (q p : FPath)
    (h1 : p ≠ q) (h2 : p ≠ q.dropLast) :
    lookupDir (mkdirIfMissing fs q) p = lookupDir fs p := by
  rw [mkdirIfMissing]
  split
  · rfl
  · rw [lookupDir, if_neg (fun hh => h1 hh.symm)]
    exact lookupDir_bumpParent fs q p h2

theorem lookupDir_foldl_mkdir (l : List FPath) (fs : Fs) (p : FPath)
    (h : ∀ q ∈ l, p ≠ q ∧ p ≠ q.dropLast) :
    lookupDir (l.foldl mkdirIfMissing fs) p = lookupDir fs p := by
  induction l generalizing fs with
  | nil => rfl
  | cons q rest ih =>
      rw [List.foldl_cons,
        ih _ (fun u hu => h u (List.mem_cons_of_mem q hu))]
      exact lookupDir_mkdirIfMissing fs q p (h q (List.mem_cons_self q rest)).1
        (h q (List.mem_cons_self q rest)).2

theorem length_le_of_mem_nonemptyPrefixes {q p : FPath}
    (h : q ∈ nonemptyPrefixes p) : q.length ≤ p.length := by
  simp only [nonemptyPrefixes, List.mem_map, List.mem_range] at h
  obtain ⟨k, _, rfl⟩ := h
  simp [List.length_take]

theorem lookupDir_create_dir_all_of_longer (fs : Fs) (p dirp : FPath)
    (h : p.length < dirp.length) :
    lookupDir (create_dir_all fs p) dirp = lookupDir fs dirp := by
  apply lookupDir_foldl_mkdir
  intro q hq
  have hql := length_le_of_mem_nonemptyPrefixes hq
  constructor
  · intro hh
    have := congrArg List.length hh
    omega
  · intro hh
    have := congrArg List.length hh
    rw [List.length_dropLast] at this
    omega

theorem foldl_mkdir_noop (l : List FPath) (fs : Fs)
    (h : ∀ q ∈ l, (lookupDir fs q).isSome = true) :
    l.foldl mkdirIfMissing fs = fs := by
  induction l with
  | nil => rfl
  | cons q rest ih =>
      rw [List.foldl_cons, mkdirIfMissing, if_pos (h q (List.mem_cons_self q rest))]
      exact ih (fun u hu => h u (List.mem_cons_of_mem q hu))

theorem mem_of_lookupDir (fs : Fs) (p : FPath) (n : Nat)
    (h : lookupDir fs p = some n) : (p, n) ∈ fs := by
  induction fs with
  | nil => cases h
  | cons a rest ih =>
      obtain ⟨q, m⟩ := a
      rw [lookupDir] at h
      split at h
      · next hqp =>
          injection h with h
          subst h
          subst hqp
          exact List.mem_cons_self _ _
      · exact List.mem_cons_of_mem _ (ih h)

theorem prefixes_of_append_singleton (path : FPath) (n : String) :
    ∀ q ∈ nonemptyPrefixes path, q ∈ nonemptyPrefixes (path ++ [n]) := by
  intro q hq
  simp only [nonemptyPrefixes, List.mem_map, List.mem_range] at hq ⊢
  obtain ⟨k, hk, rfl⟩ := hq
  refine ⟨k, ?_, ?_⟩
  · simp only [List.length_append, List.length_singleton]
    omega
  · exact List.take_append_of_le_length (by omega)

/-!
## Claims about the directory gate
-/

/-- C6: the gate of `new` fails with the distinct `ProjectDirFull` error
exactly when the target directory exists with at least one entry, and
proceeds (returns ok) exactly when the target directory is empty or absent
— emptiness is the sole condition. -/
theorem dir_gate_exactly_nonempty (fs : Fs) (path : FPath) (name : Option String) :
    ((newDirPhase fs path name).1 = .error (.projectDirFull (targetDir path name))
      ↔ 0 < entryCountOf fs (targetDir path name)) ∧
    ((newDirPhase fs path name).1.isOk = true
      ↔ entryCountOf fs (targetDir path name) = 0) := by
  cases name with
  | none =>
      by_cases h : 0 < entryCountOf fs path <;>
        simp [newDirPhase, targetDir, h, Except.isOk, Except.toBool] <;> omega
  | some n =>
      have hcnt : entryCountOf (create_dir_all fs path) (path ++ [n])
          = entryCountOf fs (path ++ [n]) := by
        rw [entryCountOf, entryCountOf, lookupDir_create_dir_all_of_longer]
        simp
      by_cases h : 0 < entryCountOf fs (path ++ [n]) <;>
        simp [newDirPhase, targetDir, hcnt, h, Except.isOk, Except.toBool] <;> omega

/-- C7: on a well-formed filesystem (every ancestor of an existing
directory exists), whenever the gate of `new` returns the
directory-not-empty error, the filesystem is unchanged: the
`create_dir_all` that precedes the check was a no-op, so no file or
directory has been created or modified. -/
theorem dir_gate_mutation_free_on_error (fs : Fs) (path : FPath) (name : Option String)
    (hwf : wfFs fs = true)
    (herr : (newDirPhase fs path name).1
      = .error (.projectDirFull (targetDir path name))) :
    (newDirPhase fs path name).2 = fs := by
  cases name with
  | none =>
      simp only [newDirPhase]
      split <;> rfl
  | some n =>
      have hsnd : (newDirPhase fs path (some n)).2 = create_dir_all fs path := by
        simp only [newDirPhase]
        split <;> rfl
      have hc : 0 < entryCountOf (create_dir_all fs path) (path ++ [n]) := by
        by_contra hc
        simp only [newDirPhase] at herr
        rw [if_neg hc] at herr
        simp at herr
      rw [entryCountOf, lookupDir_create_dir_all_of_longer fs path (path ++ [n])
        (by simp)] at hc
      cases hl : lookupDir fs (path ++ [n]) with
      | none => rw [hl] at hc; simp at hc
      | some cnum =>
          rw [hl] at hc
          have hmem := mem_of_lookupDir fs _ cnum hl
          have hall : ∀ q ∈ nonemptyPrefixes (path ++ [n]),
              (lookupDir fs q).isSome = true := by
            have h1 := List.all_eq_true.mp hwf _ hmem
            exact fun q hq => List.all_eq_true.mp h1 q hq
          have hpref : ∀ q ∈ nonemptyPrefixes path, (lookupDir fs q).isSome = true :=
            fun q hq => hall q (prefixes_of_append_singleton path n q hq)
          rw [hsnd, create_dir_all]
          exact foldl_mkdir_noop _ _ hpref

theorem dir_gate_mutation_free_on_error_witness :
    (newDirPhase [(["a"], 1)] [] (some "a")).2 = [(["a"], 1)] :=
  dir_gate_mutation_free_on_error [(["a"], 1)] [] (some "a") (by decide) rfl

/-!
## Claim about the build process driver
-/

/-- C4: running the message loop of `build` with a recording handler shows
the caller-supplied handler is invoked exactly once per artifact message
carrying an executable path, in emission order, with that path — and hence
zero times when no message carries one (the right-hand side is then empty).
Stated over an arbitrary initial accumulator `l`. -/
theorem build_invokes_handler_once_per_executable
    (msgs : List CompilerMessage) (l : List String) :
    runMessages (fun acc p => acc ++ [p]) l msgs
      = l ++ msgs.filterMap CompilerMessage.exePath := by
  induction msgs generalizing l with
  | nil => simp [runMessages]
  | cons m rest ih =>
      cases m with
      | other => simp [runMessages, CompilerMessage.exePath, ih]
      | compilerArtifact exe =>
          cases exe <;> simp [runMessages, CompilerMessage.exePath, ih]

/-!
## Helper lemmas about the manifest rewrite
-/

theorem replaceAll_of_occurs_zero (P N : Str) (s : Str) (h : occurs P s = 0) :
    replaceAll P N s = s := by
  induction s with
  | nil => rw [replaceAll]
  | cons c rest ih =>
      rw [occurs] at h
      rw [replaceAll]
      split at h
      · omega
      · next hp => rw [dif_neg hp, ih h]

theorem splitFirst_eq_append (P : Str) (s pre suf : Str)
    (h : splitFirst P s = some (pre, suf)) : s = pre ++ P ++ suf := by
  induction s generalizing pre with
  | nil => rw [splitFirst] at h; cases h
  | cons c rest ih =>
      rw [splitFirst] at h
      split at h
      · next hp =>
          injection h with h
          injection h with h1 h2
          subst h1
          obtain ⟨t, ht⟩ := List.isPrefixOf_iff_prefix.mp hp.2
          subst h2
          rw [← ht]
          simp [List.drop_left]
      · next hp =>
          rcases Option.map_eq_some'.mp h with ⟨pr, hpr, heq⟩
          injection heq with h1 h2
          subst h2
          subst h1
          simpa using ih pr.1 hpr

theorem replaceAll_single (P N : Str) (s pre suf : Str)
    (hsplit : splitFirst P s = some (pre, suf)) (hocc : occurs P suf = 0) :
    replaceAll P N s = pre ++ N ++ suf := by
  induction s generalizing pre with
  | nil => rw [splitFirst] at hsplit; cases hsplit
  | cons c rest ih =>
      rw [splitFirst] at hsplit
      rw [replaceAll]
      split at hsplit
      · next hp =>
          injection hsplit with h
          injection h with h1 h2
          subst h1
          subst h2
          rw [dif_pos hp, replaceAll_of_occurs_zero P N _ hocc]
          simp
      · next hp =>
          rcases Option.map_eq_some'.mp hsplit with ⟨pr, hpr, heq⟩
          injection heq with h1 h2
          subst h2
          subst h1
          rw [dif_neg hp, ih pr.1 hpr]
          simp

/-!
## Claim about the manifest rewrite
-/

/-- C8 counterexample: the manifest `"vexide-templatee"` contains the
placeholder exactly once, yet rewriting it with the project name
`"vexide-templat"` yields `"vexide-template"` — the replacement for the
single occurrence junctions with the following text to reintroduce the
placeholder, so the output does not have zero remaining occurrences. -/
theorem manifest_rewrite_counterexample :
    occurs placeholderName "vexide-templatee".toList = 1 ∧
    occurs placeholderName
      (rewriteManifest "vexide-templatee".toList "vexide-templat".toList) ≠ 0 := by
  constructor
  · simp +decide [occurs, placeholderName]
  · simp +decide [occurs, replaceAll, rewriteManifest, placeholderName]

/-- C8 (amended): for a manifest containing the placeholder identifier
exactly once (it splits as `pre ++ placeholder ++ suf` with no further
occurrence), the rewrite with project name `N` produces exactly
`pre ++ N ++ suf` — the name at that position; occurrences of the
placeholder can remain only when `N` (or its junction with the surrounding
text) reintroduces it. -/
theorem manifest_rewrite_replaces_single_occurrence (manifest name pre suf : Str)
    (hsplit : splitFirst placeholderName manifest = some (pre, suf))
    (hocc : occurs placeholderName suf = 0) :
    manifest = pre ++ placeholderName ++ suf ∧
    rewriteManifest manifest name = pre ++ name ++ suf :=
  ⟨splitFirst_eq_append _ _ _ _ hsplit,
   replaceAll_single _ _ _ _ _ hsplit hocc⟩

theorem manifest_rewrite_replaces_single_occurrence_witness :
    "vexide-template!".toList = ([] : Str) ++ placeholderName ++ ['!'] ∧
    rewriteManifest "vexide-template!".toList ['n'] = ([] : Str) ++ ['n'] ++ ['!'] :=
  manifest_rewrite_replaces_single_occurrence "vexide-template!".toList ['n'] [] ['!']
    (by decide) (by simp +decide [occurs, placeholderName])

/-!
## Claim about the error-handling policy
-/

/-- C9 counterexample: a run in which the cache-data write fails is
indistinguishable, in both its logs and its returned template, from the
same run with the write succeeding — the write failure is neither
propagated nor logged (the logs carry no warning at all); only the
persisted cache differs (the new bytes were lost). -/
theorem cache_write_failure_silent_counterexample :
    (resolveTemplate ⟨.gotBody (some "f2"), .gotBody (some "f2"), .ok [2], true, false, true, [9]⟩
        ⟨some [1], some "f1"⟩ true).logs
      = (resolveTemplate ⟨.gotBody (some "f2"), .gotBody (some "f2"), .ok [2], true, true, true, [9]⟩
        ⟨some [1], some "f1"⟩ true).logs ∧
    (resolveTemplate ⟨.gotBody (some "f2"), .gotBody (some "f2"), .ok [2], true, false, true, [9]⟩
        ⟨some [1], some "f1"⟩ true).template
      = (resolveTemplate ⟨.gotBody (some "f2"), .gotBody (some "f2"), .ok [2], true, true, true, [9]⟩
        ⟨some [1], some "f1"⟩ true).template ∧
    (resolveTemplate ⟨.gotBody (some "f2"), .gotBody (some "f2"), .ok [2], true, false, true, [9]⟩
        ⟨some [1], some "f1"⟩ true).cache.dataFile = some [1] ∧
    (resolveTemplate ⟨.gotBody (some "f2"), .gotBody (some "f2"), .ok [2], true, true, true, [9]⟩
        ⟨some [1], some "f1"⟩ true).cache.dataFile = some [2] ∧
    ((resolveTemplate ⟨.gotBody (some "f2"), .gotBody (some "f2"), .ok [2], true, false, true, [9]⟩
        ⟨some [1], some "f1"⟩ true).logs.all (fun m => m.level ≠ .warn)) = true := by
  decide

/-- C9 (amended): cache-write failures are silently ignored —
`store_cached_template` emits no log on any path and returns no error; a
metadata-response read failure is converted into the (distinct, propagated)
malformed-response error by `get_current_sha`; and archive-download
failures on the fallback path are logged at warning level before falling
back. -/
theorem error_policy_amended (w : World) (st : CacheState)
    (hcur : cacheIsCurrent w st = false) (hdl : w.dl.failed = true) :
    (∀ w2 st2 t, (store_cached_template w2 st2 t).2 = []) ∧
    get_current_sha .textFailed = .error .malformedResponse ∧
    couldNotFetchWarning ∈ (resolveTemplate w st true).logs := by
  refine ⟨?_, rfl, ?_⟩
  · intro w2 st2 t
    by_cases h2 : w2.cacheDirAvailable <;> cases ht : t.sha <;>
      simp [store_cached_template, h2, ht]
  · cases hw : w.dl with
    | ok bytes => rw [hw] at hdl; simp [DlOutcome.failed] at hdl
    | sendFailed e =>
        rcases hgc : get_cached_template w st with _ | t <;>
          simp [resolveTemplate, hcur, staleFetch, fetch_template, hw, hgc]
    | bytesFailed e =>
        rcases hgc : get_cached_template w st with _ | t <;>
          simp [resolveTemplate, hcur, staleFetch, fetch_template, hw, hgc]

theorem error_policy_amended_witness :
    (∀ w2 st2 t, (store_cached_template w2 st2 t).2 = []) ∧
    get_current_sha .textFailed = .error .malformedResponse ∧
    couldNotFetchWarning ∈ (resolveTemplate
      ⟨.sendFailed 3, .gotBody none, .bytesFailed 5, true, true, true, [9]⟩
      ⟨some [1], some "f1"⟩ true).logs :=
  error_policy_amended
    ⟨.sendFailed 3, .gotBody none, .bytesFailed 5, true, true, true, [9]⟩
    ⟨some [1], some "f1"⟩ (by decide) (by decide)
